import Mathlib

/-!
Verification of the Gauge parallel-execution coordinator.

A shallow embedding of `execution/parallelExecution.go` and
`config/configuration.go` from the Gauge test runner, together with proofs
about stream-count resolution, stream start-failure handling, result
aggregation, strategy selection, stream error formatting and configuration
timeout parsing.

Conventions of the embedding:
* Go `int`/`int64` values are modelled as `Int`; where the Go code can
  overflow 64-bit arithmetic (`time.Duration` multiplication) the wrap is
  made explicit via `int64Wrap`.
* The opaque collaborators (the runner process, the single-stream executor,
  the configuration lookup) are passed in as explicit parameters; the
  channel sends and process-lifecycle calls performed by a stream worker
  are recorded as an explicit event trace.
* A `Specification` is identified by its name (a `String`), as the
  surrounding system never distinguishes two specs with the same path.
-/

namespace Gauge

/-- The two error shapes a stream start failure can produce in
`parallelExecution.go`: the `streamExecError` struct (carrying the skipped
spec names and a message), and a plain error built with `fmt.Errorf`.
`errorString` below gives each one's `Error()` rendering. -/
inductive GaugeError where
  | streamExecError (specsSkipped : List String) (message : String)
  | basicError (message : String)
deriving DecidableEq

/-- Embedding of `streamExecError.Error()`: the loop
`specNames += fmt.Sprintf("%s\n", spec)` followed by the final
`fmt.Sprintf("The following specifications could not be executed:\n%sReason : %s.", specNames, s.message)`.
A `basicError` renders as its message, as `fmt.Errorf` errors do. -/
def errorString : GaugeError → String
  | .streamExecError specsSkipped message =>
      let specNames := specsSkipped.foldl (fun acc spec => acc ++ spec ++ "\n") ""
      "The following specifications could not be executed:\n" ++ specNames ++
        "Reason : " ++ message ++ "."
  | .basicError message => message

/-- Decides whether an error value is the `streamExecError` shape. -/
def isStreamExecError : GaugeError → Bool
  | .streamExecError _ _ => true
  | .basicError _ => false

/-- Embedding of `gauge.SpecCollection`, reduced to what `parallelExecution.go` reads
from it: the ordered spec names (`SpecNames`) and the count (`Size`). -/
structure SpecCollection where
  specs : List String
deriving DecidableEq

/-- Embedding of `SpecCollection.Size()`. -/
def SpecCollection.size (s : SpecCollection) : Int := s.specs.length

/-- Embedding of `SpecCollection.SpecNames()`. -/
def SpecCollection.specNames (s : SpecCollection) : List String := s.specs

/-- Embedding of `result.SuiteResult`, restricted to the fields `parallelExecution.go`
reads or writes. The same Go type serves both as a per-stream result (the
spec's StreamResult) and as the aggregate. `σ` is the opaque type of one
spec result, `ρ` the opaque type of a pre/post-suite hook result. -/
structure SuiteResult (σ ρ : Type) where
  specsFailedCount : Int
  specResults : List σ
  isFailed : Bool
  preSuite : Option ρ
  postSuite : Option ρ
  unhandledErrors : List GaugeError
  executionTime : Int
deriving DecidableEq

variable {σ ρ : Type}

/-- The zero value of the Go struct `result.SuiteResult`: what
`&result.SuiteResult{...}` starts from before named fields are set. -/
def emptySuiteResult : SuiteResult σ ρ :=
  { specsFailedCount := 0
    specResults := []
    isFailed := false
    preSuite := none
    postSuite := none
    unhandledErrors := []
    executionTime := 0 }

/-- Embedding of `parallelExecution.numberOfStreams()`:
`nStreams := e.numberOfExecutionStreams; if nStreams > size { nStreams = size }`.
Both operands are Go `int`s, so the requested count may be any integer. -/
def numberOfStreams (numberOfExecutionStreams size : Int) : Int :=
  if numberOfExecutionStreams > size then size else numberOfExecutionStreams

/-- The constant `Eager` of `parallelExecution.go`. -/
def Eager : String := "eager"

/-- The constant `Lazy` of `parallelExecution.go`. -/
def Lazy : String := "lazy"

/-- Embedding of `strings.ToLower` as used on the strategy setting:
lower-cases every character (the setting values in scope are ASCII). -/
def toLowerGo (s : String) : String := ⟨s.data.map Char.toLower⟩

/-- Embedding of `isLazy()`: `strings.ToLower(Strategy) == Lazy`, with the
process-wide `Strategy` variable passed explicitly. -/
def isLazy (strategy : String) : Bool := toLowerGo strategy == Lazy

/-- Embedding of `isValidStrategy()`. -/
def isValidStrategy (strategy : String) : Bool :=
  toLowerGo strategy == Lazy || toLowerGo strategy == Eager

/-- The two distribution strategies `run()` can select. -/
inductive ExecutionMode where
  | eagerMode
  | lazyMode
deriving DecidableEq

/-- The strategy branch of `run()`: `if isLazy() { executeLazily } else
{ executeEagerly }` — every string resolves to one of the two modes,
never to an error. -/
def selectStrategy (strategy : String) : ExecutionMode :=
  if isLazy strategy then .lazyMode else .eagerMode

/-- The observable actions of one stream worker, in program order: running
the single-stream executor over a spec collection, killing the runner
process, and sending a result on the shared result channel. -/
inductive StreamEvent (σ ρ : Type) where
  | executeSpecs (specs : List String)
  | killRunner
  | send (res : SuiteResult σ ρ)
deriving DecidableEq

/-- The results a trace sends on the shared result channel, in order. -/
def sendsOf (trace : List (StreamEvent σ ρ)) : List (SuiteResult σ ρ) :=
  trace.filterMap fun ev =>
    match ev with
    | .send r => some r
    | _ => none

/-- Embedding of `startSpecsExecutionWithRunner`: build the execution info,
run the simple execution (`se.execute()`, an external collaborator modelled
by `executor`), call `runner.Kill()`, and send `se.suiteResult` on the
channel. The returned trace records those actions in program order. -/
def startSpecsExecutionWithRunner (s : SpecCollection)
    (executor : SpecCollection → SuiteResult σ ρ) : List (StreamEvent σ ρ) :=
  [.executeSpecs s.specNames, .killRunner, .send (executor s)]

/-- Embedding of `startStream` (the Lazy-mode worker body). `startResult`
models the outcome of `runner.Start`: `.error msg` when it fails with an
error whose `Error()` is `msg`. On failure the worker sends
`&result.SuiteResult{UnhandledErrors: []error{fmt.Errorf("Failed to start runner. %s", err.Error())}}`
and returns; on success it continues with `startSpecsExecutionWithRunner`. -/
def startStream (startResult : Except String Unit) (s : SpecCollection)
    (executor : SpecCollection → SuiteResult σ ρ) : List (StreamEvent σ ρ) :=
  match startResult with
  | .error err =>
      [.send { emptySuiteResult with
                 unhandledErrors := [.basicError ("Failed to start runner. " ++ err)] }]
  | .ok _ => startSpecsExecutionWithRunner s executor

/-- Embedding of `startSpecsExecution` (the Eager-mode worker body). On
start failure it sends a result whose sole unhandled error is
`streamExecError{specsSkipped: s.SpecNames(), message: "Failed to start runner. " + err}`;
on success it continues with `startSpecsExecutionWithRunner`. -/
def startSpecsExecution (startResult : Except String Unit) (s : SpecCollection)
    (executor : SpecCollection → SuiteResult σ ρ) : List (StreamEvent σ ρ) :=
  match startResult with
  | .error err =>
      [.send { emptySuiteResult with
                 unhandledErrors :=
                   [.streamExecError s.specNames ("Failed to start runner. " ++ err)] }]
  | .ok _ => startSpecsExecutionWithRunner s executor

/-- The loop body of `aggregateResults`: fold one stream's result into the
accumulated suite result, field by field, exactly as the Go loop does. -/
def aggregateStep (r result : SuiteResult σ ρ) : SuiteResult σ ρ :=
  { r with
    specsFailedCount := r.specsFailedCount + result.specsFailedCount
    specResults := r.specResults ++ result.specResults
    isFailed := if result.isFailed then true else r.isFailed
    preSuite := if result.preSuite.isSome then result.preSuite else r.preSuite
    postSuite := if result.postSuite.isSome then result.postSuite else r.postSuite
    unhandledErrors :=
      if result.unhandledErrors.isEmpty then r.unhandledErrors
      else r.unhandledErrors ++ result.unhandledErrors }

/-- Embedding of `aggregateResults`. The initial value models
`result.NewSuiteResult(ExecuteTags, e.startTime)` (defined outside this
package); the fields the loop touches all start at their zero values.
`executionTime` models `int64(time.Since(e.startTime) / 1e6)`, a wall-clock
measurement taken after the fold, passed here as an explicit parameter.
(`SetSpecsSkippedCount`, also external, touches no field modelled here.) -/
def aggregateResults (suiteResults : List (SuiteResult σ ρ))
    (executionTime : Int) : SuiteResult σ ρ :=
  { suiteResults.foldl aggregateStep emptySuiteResult with
      executionTime := executionTime }

/-- The last `some` entry of a list of optional values, `none` when every
entry is `none`: the value a repeated `if o != nil { r = o }` loop leaves
behind. -/
def lastNonNil : List (Option ρ) → Option ρ
  | [] => none
  | o :: rest => (lastNonNil rest).or o

/-- The first `some` entry of a list of optional values, `none` when every
entry is `none`. -/
def firstNonNil : List (Option ρ) → Option ρ
  | [] => none
  | o :: rest => o.or (firstNonNil rest)

/-! ## Configuration (`config/configuration.go`) -/

/-- The constant `time.Millisecond` in nanoseconds, the unit of `time.Duration`. -/
def timeMillisecond : Int := 1000000

/-- The constant `time.Second` in nanoseconds. -/
def timeSecond : Int := 1000000000

/-- The constant `defaultRunnerConnectionTimeout = time.Second * 25`. -/
def defaultRunnerConnectionTimeout : Int := timeSecond * 25

/-- Smallest Go `int64` value. -/
def int64Min : Int := -(2 ^ 63)

/-- Largest Go `int64` value. -/
def int64Max : Int := 2 ^ 63 - 1

/-- Wrap an unbounded integer into Go `int64` two's-complement range, as
Go's 64-bit multiplication does. -/
def int64Wrap (x : Int) : Int := (x + 2 ^ 63) % 2 ^ 64 - 2 ^ 63

/-- The numeric value of a list of ASCII digit characters. -/
def digitsToNat (digits : List Char) : Nat :=
  digits.foldl (fun acc c => acc * 10 + (c.toNat - '0'.toNat)) 0

/-- Embedding of `strconv.Atoi`: an optional sign followed by at least one
decimal digit, rejected (with an error, modelled as `none`) when any other
character appears, when no digits appear, or when the value overflows the
64-bit `int` range. -/
def atoi (s : String) : Option Int :=
  let signAndDigits : Bool × List Char :=
    match s.data with
    | '-' :: rest => (true, rest)
    | '+' :: rest => (false, rest)
    | cs => (false, cs)
  let digits := signAndDigits.2
  if digits.isEmpty then none
  else if digits.all Char.isDigit then
    let v : Int :=
      if signAndDigits.1 then -(digitsToNat digits : Int) else (digitsToNat digits : Int)
    if int64Min ≤ v ∧ v ≤ int64Max then some v else none
  else none

/-- Embedding of `convertToTime`: `strconv.Atoi(value)`; on error return
`defaultValue`, otherwise `time.Millisecond * time.Duration(intValue)`,
a 64-bit multiplication that wraps on overflow. Durations are in
nanoseconds. -/
def convertToTime (value : String) (defaultValue : Int) : Int :=
  match atoi value with
  | none => defaultValue
  | some v => int64Wrap (timeMillisecond * v)

/-- Embedding of `RunnerConnectionTimeout()`: the configuration lookup
`getFromConfig(runnerConnectionTimeout)` is an external effect, passed in
as `configValue` (the empty string when the property is missing). -/
def RunnerConnectionTimeout (configValue : String) : Int :=
  convertToTime configValue defaultRunnerConnectionTimeout

/-- The error string shape described by the specification, written
independently of the code: the fixed header, then each skipped spec name
followed by a newline, in list order, then the reason sentence. -/
def claimedStreamExecErrorString (specsSkipped : List String) (message : String) : String :=
  "The following specifications could not be executed:\n" ++
    (specsSkipped.map (fun n => n ++ "\n")).foldr (fun a b => a ++ b) "" ++
    "Reason : " ++ message ++ "."

end Gauge

namespace Gauge

variable {σ ρ : Type}

/-! ## Shared helper lemmas -/

theorem foldl_append_newline (l : List String) (acc : String) :
    l.foldl (fun a s => a ++ s ++ "\n") acc =
      acc ++ (l.map (fun n => n ++ "\n")).foldr (fun a b => a ++ b) "" := by
  induction l generalizing acc with
  | nil => simp [String.append_empty]
  | cons x t ih =>
      rw [List.foldl_cons, ih, List.map_cons, List.foldr_cons]
      simp [String.append_assoc]

theorem int64Wrap_of_range (x : Int) (h1 : int64Min ≤ x) (h2 : x ≤ int64Max) :
    int64Wrap x = x := by
  unfold int64Wrap
  simp only [int64Min, int64Max] at h1 h2
  simp only [show (2 : Int) ^ 63 = 9223372036854775808 from by norm_num,
    show (2 : Int) ^ 64 = 18446744073709551616 from by norm_num] at h1 h2 ⊢
  omega

/-! ## C1: stream-count resolution -/

/-- C1 (counterexample): the claim asserts that for every requested stream
count R the effective stream count is nonzero whenever the spec count S is
positive. It fails at R = 0, S = 1: `numberOfStreams` returns 0 although
S > 0. -/
theorem numberOfStreams_not_positive_counterexample :
    (0 : Int) < 1 ∧ numberOfStreams 0 1 = 0 := by decide

/-- C1 (amended): `numberOfStreams` returns exactly min(R, S) for every
requested count R and spec count S; when at least one stream is requested
(R ≥ 1) and S > 0, the effective count is never zero. -/
theorem numberOfStreams_min_clamp (r s : Int) :
    numberOfStreams r s = min r s ∧
      (1 ≤ r → 0 < s → numberOfStreams r s ≠ 0) := by
  unfold numberOfStreams
  constructor
  · split <;> omega
  · intro h1 h2
    split <;> omega

/-- C1 (witness): the amended statement at R = 10, S = 7. -/
theorem numberOfStreams_min_clamp_witness :
    numberOfStreams 10 7 = min 10 7 ∧ numberOfStreams 10 7 ≠ 0 :=
  ⟨(numberOfStreams_min_clamp 10 7).1,
   (numberOfStreams_min_clamp 10 7).2 (by decide) (by decide)⟩

/-! ## C6: strategy resolution -/

/-- C6: strategy resolution is total over all strings (there is no error
outcome: every value selects one of the two modes), the value `lazy` in any
letter case selects the Lazy strategy, and every string that is not a case
variant of `lazy` — including the empty string and `bogus` — selects the
Eager default. -/
theorem strategy_resolution_spec :
    (∀ s : String, selectStrategy s = .lazyMode ∨ selectStrategy s = .eagerMode) ∧
    (∀ c₁ c₂ c₃ c₄ : Char,
        (c₁ = 'l' ∨ c₁ = 'L') → (c₂ = 'a' ∨ c₂ = 'A') →
        (c₃ = 'z' ∨ c₃ = 'Z') → (c₄ = 'y' ∨ c₄ = 'Y') →
        selectStrategy ⟨[c₁, c₂, c₃, c₄]⟩ = .lazyMode) ∧
    (∀ s : String, toLowerGo s ≠ Lazy → selectStrategy s = .eagerMode) ∧
    selectStrategy "" = .eagerMode ∧ selectStrategy "bogus" = .eagerMode := by
  refine ⟨?_, ?_, ?_, by decide, by decide⟩
  · intro s
    unfold selectStrategy
    split
    · exact Or.inl rfl
    · exact Or.inr rfl
  · intro c₁ c₂ c₃ c₄ h₁ h₂ h₃ h₄
    rcases h₁ with rfl | rfl <;> rcases h₂ with rfl | rfl <;>
      rcases h₃ with rfl | rfl <;> rcases h₄ with rfl | rfl <;> decide
  · intro s h
    have hl : isLazy s = false := by
      unfold isLazy
      exact beq_eq_false_iff_ne.mpr h
    unfold selectStrategy
    rw [hl]
    rfl

/-- C6 (witness): a mixed-case `lazy` selects the Lazy strategy and a
non-`lazy` value selects Eager. -/
theorem strategy_resolution_spec_witness :
    selectStrategy ⟨['L', 'A', 'z', 'Y']⟩ = .lazyMode ∧
      selectStrategy "Bogus" = .eagerMode :=
  ⟨strategy_resolution_spec.2.1 'L' 'A' 'z' 'Y'
      (Or.inr rfl) (Or.inr rfl) (Or.inl rfl) (Or.inr rfl),
   strategy_resolution_spec.2.2.1 "Bogus" (by decide)⟩

/-! ## C9: streamExecError rendering -/

/-- C9: `streamExecError.Error()` renders exactly as the claim states: the
fixed header line, every skipped spec name on its own line in list order,
then the reason followed by a period. -/
theorem streamExecError_error_string (specsSkipped : List String) (message : String) :
    errorString (.streamExecError specsSkipped message) =
      claimedStreamExecErrorString specsSkipped message := by
  simp only [errorString, claimedStreamExecErrorString]
  rw [foldl_append_newline]
  simp [String.empty_append, String.append_assoc]

/-! ## C10: configuration timeout parsing -/

/-- C10 (counterexample): the claim asserts that a value parsing as integer
v always yields exactly v milliseconds. At v = 10^13 the multiplication
`time.Millisecond * time.Duration(v)` overflows the 64-bit duration and
wraps to a negative value instead of 10^19 nanoseconds. -/
theorem convertToTime_overflow_counterexample :
    atoi "10000000000000" = some 10000000000000 ∧
      convertToTime "10000000000000" 0 = -8446744073709551616 ∧
      convertToTime "10000000000000" 0 ≠ timeMillisecond * 10000000000000 := by
  refine ⟨by decide, by decide, by decide⟩

/-- C10 (amended): when the value does not parse under `strconv.Atoi`
(malformed, empty, or out of 64-bit range) `convertToTime` returns the
supplied default — in particular `RunnerConnectionTimeout` returns 25
seconds when the property is missing or malformed; when the value parses
as v and v milliseconds fits in a 64-bit duration, the result is exactly
v milliseconds. -/
theorem convertToTime_spec (value : String) (defaultValue v : Int) :
    (atoi value = none → convertToTime value defaultValue = defaultValue) ∧
    (atoi value = some v → int64Min ≤ timeMillisecond * v →
      timeMillisecond * v ≤ int64Max →
      convertToTime value defaultValue = timeMillisecond * v) ∧
    RunnerConnectionTimeout "" = timeSecond * 25 ∧
    (atoi "abc" = none ∧ RunnerConnectionTimeout "abc" = timeSecond * 25) := by
  refine ⟨?_, ?_, by decide, by decide, by decide⟩
  · intro h
    unfold convertToTime
    rw [h]
  · intro h h1 h2
    unfold convertToTime
    rw [h]
    exact int64Wrap_of_range _ h1 h2

/-- C10 (witness): the amended statement at the well-formed value "1000"
(one second) and at the malformed value "zz". -/
theorem convertToTime_spec_witness :
    convertToTime "1000" 5 = timeMillisecond * 1000 ∧ convertToTime "zz" 7 = 7 :=
  ⟨(convertToTime_spec "1000" 5 1000).2.1 (by decide) (by decide) (by decide),
   (convertToTime_spec "zz" 7 0).1 (by decide)⟩

/-! ## C2: stream start failure -/

/-- C2 (counterexample): the claim asserts that in Lazy mode, too, a
start failure yields a `streamExecError` naming every spec the stream was
responsible for. In fact the Lazy-mode worker (`startStream`) emits a plain
`fmt.Errorf` error that names no specs: at a concrete failing start over
the collection [spec1.spec, spec2.spec], the single sent result carries a
`basicError`, not a `streamExecError`. -/
theorem startStream_failure_plain_error_counterexample :
    sendsOf (startStream (σ := Unit) (ρ := Unit) (.error "connection refused")
        ⟨["spec1.spec", "spec2.spec"]⟩ (fun _ => emptySuiteResult)) =
      [{ emptySuiteResult with
           unhandledErrors := [.basicError "Failed to start runner. connection refused"] }] ∧
    isStreamExecError (.basicError "Failed to start runner. connection refused") = false := by
  exact ⟨rfl, rfl⟩

/-- C2 (amended): when the worker process fails to start, no execution is
attempted and the stream's whole trace is one send of a result with empty
spec results and exactly one unhandled error. In Eager mode
(`startSpecsExecution`) that error is a `streamExecError` naming every spec
of the stream's bucket; in Lazy mode (`startStream`) it is a plain error
carrying only the failure reason. -/
theorem stream_start_failure_emits_error_result (err : String) (s : SpecCollection)
    (executor : SpecCollection → SuiteResult σ ρ) :
    startSpecsExecution (.error err) s executor =
      [.send { emptySuiteResult with
                 unhandledErrors :=
                   [.streamExecError s.specNames ("Failed to start runner. " ++ err)] }] ∧
    startStream (.error err) s executor =
      [.send { emptySuiteResult with
                 unhandledErrors := [.basicError ("Failed to start runner. " ++ err)] }] := by
  exact ⟨rfl, rfl⟩

/-! ## C7: one channel send per stream -/

/-- C7: every stream worker body — `startStream` (Lazy),
`startSpecsExecution` (Eager) and the shared `startSpecsExecutionWithRunner`
success path — performs exactly one send on the result channel, whether the
worker process starts successfully or fails. -/
theorem exactly_one_send_per_stream (startResult : Except String Unit)
    (s : SpecCollection) (executor : SpecCollection → SuiteResult σ ρ) :
    (sendsOf (startStream startResult s executor)).length = 1 ∧
    (sendsOf (startSpecsExecution startResult s executor)).length = 1 ∧
    (sendsOf (startSpecsExecutionWithRunner s executor)).length = 1 := by
  refine ⟨?_, ?_, rfl⟩ <;> cases startResult <;> rfl

/-! ## C8: kill after execution, result forwarded unmodified -/

/-- C8: on the success path the worker runs the executor, then kills the
runner process (unconditionally — the executor's outcome is an arbitrary
function value here), and the only channel send is the executor's result,
unmodified. -/
theorem runner_killed_and_result_sent_unmodified (s : SpecCollection)
    (executor : SpecCollection → SuiteResult σ ρ) :
    startSpecsExecutionWithRunner s executor =
      [.executeSpecs s.specNames, .killRunner, .send (executor s)] ∧
    sendsOf (startSpecsExecutionWithRunner s executor) = [executor s] := by
  exact ⟨rfl, rfl⟩

/-! ## C3: aggregate of one failed-to-start stream -/

/-- C3: with two streams — one whose worker failed to start (its result
carries only the `streamExecError`) and one normal passing stream — the
aggregate holds exactly that one unhandled error and the other stream's
spec results unchanged, but `IsFailed` remains false: the failure-path
result never sets its `IsFailed` flag and the fold only ORs the per-stream
flags, so the suite is not marked failed, contradicting the claim (and the
spec's stated intent). -/
theorem aggregate_start_failure_not_marked_failed :
    (aggregateResults
        [{ (emptySuiteResult : SuiteResult Nat Nat) with
             unhandledErrors :=
               [.streamExecError ["s1.spec", "s2.spec"] "Failed to start runner. boom"] },
         { (emptySuiteResult : SuiteResult Nat Nat) with specResults := [7] }] 3).unhandledErrors =
      [.streamExecError ["s1.spec", "s2.spec"] "Failed to start runner. boom"] ∧
    (aggregateResults
        [{ (emptySuiteResult : SuiteResult Nat Nat) with
             unhandledErrors :=
               [.streamExecError ["s1.spec", "s2.spec"] "Failed to start runner. boom"] },
         { (emptySuiteResult : SuiteResult Nat Nat) with specResults := [7] }] 3).specResults = [7] ∧
    (aggregateResults
        [{ (emptySuiteResult : SuiteResult Nat Nat) with
             unhandledErrors :=
               [.streamExecError ["s1.spec", "s2.spec"] "Failed to start runner. boom"] },
         { (emptySuiteResult : SuiteResult Nat Nat) with specResults := [7] }] 3).isFailed = false := by
  refine ⟨by decide, by decide, by decide⟩

/-! ## Aggregation fold characterization (shared lemmas) -/

theorem aggregateFold_specsFailedCount (l : List (SuiteResult σ ρ)) (acc : SuiteResult σ ρ) :
    (l.foldl aggregateStep acc).specsFailedCount =
      acc.specsFailedCount + (l.map (fun r => r.specsFailedCount)).sum := by
  induction l generalizing acc with
  | nil => simp
  | cons r t ih =>
      rw [List.foldl_cons, ih]
      simp [aggregateStep]
      ring

theorem aggregateFold_specResults (l : List (SuiteResult σ ρ)) (acc : SuiteResult σ ρ) :
    (l.foldl aggregateStep acc).specResults =
      acc.specResults ++ l.flatMap (fun r => r.specResults) := by
  induction l generalizing acc with
  | nil => simp
  | cons r t ih =>
      rw [List.foldl_cons, ih]
      simp [aggregateStep, List.flatMap_cons, List.append_assoc]

theorem aggregateFold_isFailed (l : List (SuiteResult σ ρ)) (acc : SuiteResult σ ρ) :
    (l.foldl aggregateStep acc).isFailed =
      (acc.isFailed || l.any (fun r => r.isFailed)) := by
  induction l generalizing acc with
  | nil => simp
  | cons r t ih =>
      rw [List.foldl_cons, ih]
      cases hr : r.isFailed <;> cases ha : acc.isFailed <;>
        simp [aggregateStep, hr, ha, List.any_cons]

theorem aggregateFold_unhandledErrors (l : List (SuiteResult σ ρ)) (acc : SuiteResult σ ρ) :
    (l.foldl aggregateStep acc).unhandledErrors =
      acc.unhandledErrors ++ l.flatMap (fun r => r.unhandledErrors) := by
  induction l generalizing acc with
  | nil => simp
  | cons r t ih =>
      rw [List.foldl_cons, ih]
      cases hu : r.unhandledErrors with
      | nil => simp [aggregateStep, hu]
      | cons e es => simp [aggregateStep, hu, List.flatMap_cons, List.append_assoc]

theorem aggregateFold_preSuite (l : List (SuiteResult σ ρ)) (acc : SuiteResult σ ρ) :
    (l.foldl aggregateStep acc).preSuite =
      (lastNonNil (l.map (fun r => r.preSuite))).or acc.preSuite := by
  induction l generalizing acc with
  | nil => simp [lastNonNil]
  | cons r t ih =>
      rw [List.foldl_cons, ih]
      simp only [List.map_cons, lastNonNil]
      cases hr : r.preSuite <;>
        cases hl : lastNonNil (t.map (fun r => r.preSuite)) <;>
          simp [aggregateStep, hr, hl, Option.or]

theorem aggregateFold_postSuite (l : List (SuiteResult σ ρ)) (acc : SuiteResult σ ρ) :
    (l.foldl aggregateStep acc).postSuite =
      (lastNonNil (l.map (fun r => r.postSuite))).or acc.postSuite := by
  induction l generalizing acc with
  | nil => simp [lastNonNil]
  | cons r t ih =>
      rw [List.foldl_cons, ih]
      simp only [List.map_cons, lastNonNil]
      cases hr : r.postSuite <;>
        cases hl : lastNonNil (t.map (fun r => r.postSuite)) <;>
          simp [aggregateStep, hr, hl, Option.or]

theorem perm_any_eq {α : Type} (p : α → Bool) {l₁ l₂ : List α}
    (h : List.Perm l₁ l₂) : l₁.any p = l₂.any p := by
  rw [Bool.eq_iff_iff, List.any_eq_true, List.any_eq_true]
  constructor
  · rintro ⟨x, hx, hp⟩
    exact ⟨x, h.mem_iff.mp hx, hp⟩
  · rintro ⟨x, hx, hp⟩
    exact ⟨x, h.mem_iff.mpr hx, hp⟩

/-! ## C4: the aggregate's fields -/

/-- C4 (counterexample): the claim says the aggregate keeps the *first*
non-nil pre-suite hook result among the streams. The loop overwrites the
field on every non-nil entry, so it keeps the *last*: with stream hook
results `some 1` then `some 2`, the aggregate holds `some 2`, not the
first non-nil entry `some 1`. -/
theorem aggregate_preSuite_last_counterexample :
    (aggregateResults
        [{ (emptySuiteResult : SuiteResult Nat Nat) with preSuite := some 1 },
         { (emptySuiteResult : SuiteResult Nat Nat) with preSuite := some 2 }] 0).preSuite =
      some 2 ∧
    firstNonNil [(some 1 : Option Nat), some 2] = some 1 ∧
    (some 2 : Option Nat) ≠ some 1 := by
  refine ⟨by decide, by decide, by decide⟩

/-- C4 (amended): `aggregateResults` produces the sum of the streams'
failed counts, the concatenation of their spec results, the OR of their
failure flags, the concatenation of their unhandled errors, and the *last*
(not first) non-nil pre-suite and post-suite hook results among the
streams; its execution time is the coordinator's wall-clock measurement. -/
theorem aggregateResults_fields (results : List (SuiteResult σ ρ)) (t : Int) :
    (aggregateResults results t).specsFailedCount =
        (results.map (fun r => r.specsFailedCount)).sum ∧
    (aggregateResults results t).specResults =
        results.flatMap (fun r => r.specResults) ∧
    (aggregateResults results t).isFailed = results.any (fun r => r.isFailed) ∧
    (aggregateResults results t).unhandledErrors =
        results.flatMap (fun r => r.unhandledErrors) ∧
    (aggregateResults results t).preSuite =
        lastNonNil (results.map (fun r => r.preSuite)) ∧
    (aggregateResults results t).postSuite =
        lastNonNil (results.map (fun r => r.postSuite)) ∧
    (aggregateResults results t).executionTime = t := by
  refine ⟨?_, ?_, ?_, ?_, ?_, ?_, rfl⟩
  · show (results.foldl aggregateStep emptySuiteResult).specsFailedCount = _
    rw [aggregateFold_specsFailedCount]
    simp [emptySuiteResult]
  · show (results.foldl aggregateStep emptySuiteResult).specResults = _
    rw [aggregateFold_specResults]
    simp [emptySuiteResult]
  · show (results.foldl aggregateStep emptySuiteResult).isFailed = _
    rw [aggregateFold_isFailed]
    simp [emptySuiteResult]
  · show (results.foldl aggregateStep emptySuiteResult).unhandledErrors = _
    rw [aggregateFold_unhandledErrors]
    simp [emptySuiteResult]
  · show (results.foldl aggregateStep emptySuiteResult).preSuite = _
    rw [aggregateFold_preSuite]
    simp [emptySuiteResult, Option.or_none]
  · show (results.foldl aggregateStep emptySuiteResult).postSuite = _
    rw [aggregateFold_postSuite]
    simp [emptySuiteResult, Option.or_none]

/-! ## C5: order independence of aggregation -/

/-- C5 (counterexample): the claim asserts a bit-identical aggregate under
any permutation of the stream results, execution time aside. With equal
execution times, swapping two streams whose spec-result lists are `[1]`
and `[2]` changes the aggregate's concatenated spec-result list from
`[1, 2]` to `[2, 1]`, so the aggregates differ. -/
theorem aggregate_order_dependent_counterexample :
    aggregateResults
        [{ (emptySuiteResult : SuiteResult Nat Nat) with specResults := [1] },
         { (emptySuiteResult : SuiteResult Nat Nat) with specResults := [2] }] 0 ≠
      aggregateResults
        [{ (emptySuiteResult : SuiteResult Nat Nat) with specResults := [2] },
         { (emptySuiteResult : SuiteResult Nat Nat) with specResults := [1] }] 0 := by
  decide

/-- C5 (amended): aggregation is order-independent for the counts and
flags: under any permutation of the stream results the aggregate's
failed count, failure flag and execution time are identical, and its
spec-result and unhandled-error lists are permutations of one another
(their cross-stream order follows arrival order). -/
theorem aggregateResults_perm_invariant (l₁ l₂ : List (SuiteResult σ ρ)) (t : Int)
    (h : List.Perm l₁ l₂) :
    (aggregateResults l₁ t).specsFailedCount = (aggregateResults l₂ t).specsFailedCount ∧
    (aggregateResults l₁ t).isFailed = (aggregateResults l₂ t).isFailed ∧
    (aggregateResults l₁ t).executionTime = (aggregateResults l₂ t).executionTime ∧
    List.Perm (aggregateResults l₁ t).specResults (aggregateResults l₂ t).specResults ∧
    List.Perm (aggregateResults l₁ t).unhandledErrors
      (aggregateResults l₂ t).unhandledErrors := by
  have count : ∀ l : List (SuiteResult σ ρ), (aggregateResults l t).specsFailedCount =
      (l.map (fun r => r.specsFailedCount)).sum := by
    intro l
    show (l.foldl aggregateStep emptySuiteResult).specsFailedCount = _
    rw [aggregateFold_specsFailedCount]
    simp [emptySuiteResult]
  have failed : ∀ l : List (SuiteResult σ ρ), (aggregateResults l t).isFailed =
      l.any (fun r => r.isFailed) := by
    intro l
    show (l.foldl aggregateStep emptySuiteResult).isFailed = _
    rw [aggregateFold_isFailed]
    simp [emptySuiteResult]
  have specs : ∀ l : List (SuiteResult σ ρ), (aggregateResults l t).specResults =
      l.flatMap (fun r => r.specResults) := by
    intro l
    show (l.foldl aggregateStep emptySuiteResult).specResults = _
    rw [aggregateFold_specResults]
    simp [emptySuiteResult]
  have errs : ∀ l : List (SuiteResult σ ρ), (aggregateResults l t).unhandledErrors =
      l.flatMap (fun r => r.unhandledErrors) := by
    intro l
    show (l.foldl aggregateStep emptySuiteResult).unhandledErrors = _
    rw [aggregateFold_unhandledErrors]
    simp [emptySuiteResult]
  refine ⟨?_, ?_, rfl, ?_, ?_⟩
  · rw [count, count]
    exact (h.map (fun r => r.specsFailedCount)).sum_eq
  · rw [failed, failed]
    exact perm_any_eq _ h
  · rw [specs, specs]
    exact h.flatMap_right _
  · rw [errs, errs]
    exact h.flatMap_right _

/-- C5 (witness): the amended statement on two concrete stream results in
swapped arrival orders. -/
theorem aggregateResults_perm_invariant_witness :
    (aggregateResults
        [{ (emptySuiteResult : SuiteResult Nat Nat) with specsFailedCount := 1 },
         { (emptySuiteResult : SuiteResult Nat Nat) with specsFailedCount := 2 }] 0).specsFailedCount =
      (aggregateResults
        [{ (emptySuiteResult : SuiteResult Nat Nat) with specsFailedCount := 2 },
         { (emptySuiteResult : SuiteResult Nat Nat) with specsFailedCount := 1 }] 0).specsFailedCount :=
  (aggregateResults_perm_invariant _ _ 0 (List.Perm.swap _ _ _)).1

end Gauge
